import Mathlib

/-!
Shallow embedding of the minecraft-auto-miner core modules
(`src/modules/mining.js`, the safety module and the navigation module),
together with theorems settling the specification claims about them.

Conventions of the embedding:
* block coordinates are integer triples (`Pos`);
* the agent's continuous position is a rational triple (`Vec3q`) —
  the source's IEEE floats are idealized as exact rationals;
* JavaScript `for (v = a; v <= b; v++)` loops are `rangeInt a b`;
* distances: the source compares `Math.sqrt` of sums of squares; since
  square root is strictly monotone on nonnegative reals, every comparison
  of distances in the source is embedded as the same comparison of the
  rational squared distances, and theorems about Euclidean distance are
  stated via `Real.sqrt` of those squared distances.
-/

namespace AutoMiner

/-- An integer block coordinate, the `{x, y, z}` objects of the source. -/
structure Pos where
  x : Int
  y : Int
  z : Int
deriving DecidableEq, Repr

/-- `rangeInt a b` is the list of integers produced by
`for (v = a; v <= b; v++)`: `[a, a+1, ..., b]` (empty when `b < a`). -/
def rangeInt (a b : Int) : List Int :=
  (List.range (b + 1 - a).toNat).map (fun i : Nat => a + (i : Int))

theorem mem_rangeInt {a b i : Int} : i ∈ rangeInt a b ↔ a ≤ i ∧ i ≤ b := by
  simp only [rangeInt, List.mem_map, List.mem_range]
  constructor
  · rintro ⟨k, hk, rfl⟩
    omega
  · rintro ⟨h1, h2⟩
    exact ⟨(i - a).toNat, by omega, by omega⟩

theorem pairwise_rangeInt (a b : Int) : (rangeInt a b).Pairwise (· < ·) := by
  simp only [rangeInt, List.pairwise_map]
  exact (List.pairwise_lt_range _).imp (by omega)

/-- `calculateMiningArea` from `src/modules/mining.js` (lines 28–51):
component-wise min/max of the two corners, then nested
`x`-outer / `y`-middle / `z`-inner ascending loops pushing `{x, y, z}`. -/
def calculateMiningArea (startPos endPos : Pos) : List Pos :=
  (rangeInt (min startPos.x endPos.x) (max startPos.x endPos.x)).flatMap fun x =>
    (rangeInt (min startPos.y endPos.y) (max startPos.y endPos.y)).flatMap fun y =>
      (rangeInt (min startPos.z endPos.z) (max startPos.z endPos.z)).map fun z =>
        { x := x, y := y, z := z }

/-- Strict lexicographic order on coordinates: ascending `x`, then `y`, then `z`. -/
def posLt (p q : Pos) : Prop :=
  p.x < q.x ∨ (p.x = q.x ∧ (p.y < q.y ∨ (p.y = q.y ∧ p.z < q.z)))

theorem mem_calculateMiningArea (s e p : Pos) :
    p ∈ calculateMiningArea s e ↔
      (min s.x e.x ≤ p.x ∧ p.x ≤ max s.x e.x ∧
       min s.y e.y ≤ p.y ∧ p.y ≤ max s.y e.y ∧
       min s.z e.z ≤ p.z ∧ p.z ≤ max s.z e.z) := by
  simp only [calculateMiningArea, List.mem_flatMap, List.mem_map, mem_rangeInt]
  constructor
  · rintro ⟨x, hx, y, hy, z, hz, rfl⟩
    exact ⟨hx.1, hx.2, hy.1, hy.2, hz.1, hz.2⟩
  · rintro ⟨h1, h2, h3, h4, h5, h6⟩
    exact ⟨p.x, ⟨h1, h2⟩, p.y, ⟨h3, h4⟩, p.z, ⟨h5, h6⟩, rfl⟩

theorem pairwise_calculateMiningArea (s e : Pos) :
    (calculateMiningArea s e).Pairwise posLt := by
  rw [calculateMiningArea]
  rw [List.pairwise_flatMap]
  refine ⟨fun x _ => ?_, ?_⟩
  · rw [List.pairwise_flatMap]
    refine ⟨fun y _ => ?_, ?_⟩
    · rw [List.pairwise_map]
      exact (pairwise_rangeInt _ _).imp fun h => Or.inr ⟨rfl, Or.inr ⟨rfl, h⟩⟩
    · refine (pairwise_rangeInt _ _).imp fun h => ?_
      simp only [List.mem_map]
      rintro p ⟨z1, _, rfl⟩ q ⟨z2, _, rfl⟩
      exact Or.inr ⟨rfl, Or.inl h⟩
  · refine (pairwise_rangeInt _ _).imp fun h => ?_
    simp only [List.mem_flatMap, List.mem_map]
    rintro p ⟨y1, _, z1, _, rfl⟩ q ⟨y2, _, z2, _, rfl⟩
    exact Or.inl h

theorem calculateMiningArea_comm (s e : Pos) :
    calculateMiningArea s e = calculateMiningArea e s := by
  rw [calculateMiningArea, calculateMiningArea,
    min_comm s.x e.x, max_comm s.x e.x,
    min_comm s.y e.y, max_comm s.y e.y,
    min_comm s.z e.z, max_comm s.z e.z]

/-- C3: `calculateMiningArea` returns exactly the cells of the closed box
spanned by the component-wise min/max of the two corners, enumerated in
ascending `x`, then `y`, then `z` order (strictly lexicographically, so each
cell appears exactly once), and swapping the two corners yields the identical
cell sequence. -/
theorem C3_calculateMiningArea_box_order_symm (s e : Pos) :
    (∀ p : Pos, p ∈ calculateMiningArea s e ↔
      (min s.x e.x ≤ p.x ∧ p.x ≤ max s.x e.x ∧
       min s.y e.y ≤ p.y ∧ p.y ≤ max s.y e.y ∧
       min s.z e.z ≤ p.z ∧ p.z ≤ max s.z e.z)) ∧
    (calculateMiningArea s e).Pairwise posLt ∧
    calculateMiningArea s e = calculateMiningArea e s :=
  ⟨fun p => mem_calculateMiningArea s e p,
   pairwise_calculateMiningArea s e,
   calculateMiningArea_comm s e⟩

/-- The agent's continuous position (`bot.entity.position`), an exact-rational
idealization of the source's floating-point vector. -/
structure Vec3q where
  x : ℚ
  y : ℚ
  z : ℚ
deriving DecidableEq, Repr

/-- Squared Euclidean distance from the agent position to a block coordinate,
the radicand of the `Math.sqrt(Math.pow(…)+Math.pow(…)+Math.pow(…))`
expressions in `sortBlocksByDistance`. -/
def distSq (botPos : Vec3q) (p : Pos) : ℚ :=
  ((p.x : ℚ) - botPos.x) ^ 2 + ((p.y : ℚ) - botPos.y) ^ 2 + ((p.z : ℚ) - botPos.z) ^ 2

/-- `sortBlocksByDistance` from `src/modules/mining.js` (lines 77–95):
a stable sort (JavaScript `Array.prototype.sort` is stable) by the comparator
`distA - distB`; since square root is monotone, that comparator orders
exactly like the squared distances, which is the Bool comparator used here. -/
def sortBlocksByDistance (botPos : Vec3q) (blocks : List Pos) : List Pos :=
  blocks.mergeSort (fun a b => distSq botPos a ≤ distSq botPos b)

theorem distLe_trans (botPos : Vec3q) (a b c : Pos)
    (h1 : (decide (distSq botPos a ≤ distSq botPos b)) = true)
    (h2 : (decide (distSq botPos b ≤ distSq botPos c)) = true) :
    (decide (distSq botPos a ≤ distSq botPos c)) = true := by
  simp only [decide_eq_true_eq] at *
  exact le_trans h1 h2

theorem distLe_total (botPos : Vec3q) (a b : Pos) :
    ((decide (distSq botPos a ≤ distSq botPos b)) ||
      (decide (distSq botPos b ≤ distSq botPos a))) = true := by
  simp only [Bool.or_eq_true, decide_eq_true_eq]
  exact le_total _ _

theorem sortBlocksByDistance_pairwise (botPos : Vec3q) (blocks : List Pos) :
    (sortBlocksByDistance botPos blocks).Pairwise
      (fun a b => distSq botPos a ≤ distSq botPos b) := by
  have h := @List.sorted_mergeSort Pos
    (fun a b => decide (distSq botPos a ≤ distSq botPos b))
    (distLe_trans botPos) (distLe_total botPos) blocks
  exact h.imp (by simp only [decide_eq_true_eq]; exact fun h => h)

theorem sortBlocksByDistance_stable (botPos : Vec3q) (blocks : List Pos) (d : ℚ) :
    (sortBlocksByDistance botPos blocks).filter (fun p => distSq botPos p = d)
      = blocks.filter (fun p => distSq botPos p = d) := by
  set f : Pos → Bool := fun p => decide (distSq botPos p = d) with hf
  have hmemA : ∀ p ∈ blocks.filter f, distSq botPos p = d := by
    intro p hp
    have := (List.mem_filter.mp hp).2
    simpa [hf] using this
  have hApw : (blocks.filter f).Pairwise
      (fun a b => (decide (distSq botPos a ≤ distSq botPos b)) = true) := by
    refine List.pairwise_of_forall_mem_list ?_
    intro a ha b hb
    simp only [decide_eq_true_eq, hmemA a ha, hmemA b hb, le_refl]
  have hsub : List.Sublist (blocks.filter f) (sortBlocksByDistance botPos blocks) := by
    have h1 : List.Sublist (blocks.filter f) blocks := List.filter_sublist blocks
    exact List.sublist_mergeSort (distLe_trans botPos) (distLe_total botPos) hApw h1
  have hsub2 : List.Sublist (blocks.filter f)
      ((sortBlocksByDistance botPos blocks).filter f) := by
    have := hsub.filter f
    rwa [List.filter_filter, show (fun p => f p && f p) = f by
      funext p; cases f p <;> simp] at this
  have hperm : List.Perm ((sortBlocksByDistance botPos blocks).filter f)
      (blocks.filter f) :=
    (List.mergeSort_perm blocks _).filter f
  exact (hsub2.eq_of_length hperm.length_eq.symm).symm

/-- C4: the sequence produced by `sortBlocksByDistance` has non-decreasing
Euclidean distance from the agent position (consecutive entries), and cells
at equal distance keep their original relative order (the sort is stable,
stated as: filtering the output at any fixed distance equals filtering the
input at that distance). -/
theorem C4_sortBlocksByDistance_monotone_stable (botPos : Vec3q) (blocks : List Pos) :
    List.Chain'
      (fun a b => Real.sqrt ((distSq botPos a : ℝ)) ≤ Real.sqrt ((distSq botPos b : ℝ)))
      (sortBlocksByDistance botPos blocks) ∧
    (∀ d : ℚ, (sortBlocksByDistance botPos blocks).filter (fun p => distSq botPos p = d)
      = blocks.filter (fun p => distSq botPos p = d)) := by
  constructor
  · refine List.Chain'.imp ?_ (sortBlocksByDistance_pairwise botPos blocks).chain'
    intro a b h
    exact Real.sqrt_le_sqrt (by exact_mod_cast h)
  · exact sortBlocksByDistance_stable botPos blocks

/-- The world/agent snapshot the mining module reads through `this.bot`:
the agent position (`bot.entity.position`) and the block name at each
coordinate (`bot.blockAt`, `none` when no block object is returned). -/
structure BotEnv where
  botPos : Vec3q
  blockNameAt : Pos → Option String

/-- An externally issued controller command (`pause()`, `resume()`, `stop()`),
which in the source can run in between two awaits of the mining loop. -/
inductive Cmd
  | pause
  | resume
  | stop
deriving DecidableEq, Repr

/-- The mutable fields of `MiningModule` relevant to the control claims:
`isMining`, `miningQueue`, `blocksPerSecond`, `ignoredBlocks`. -/
structure MState where
  isMining : Bool
  miningQueue : List Pos
  blocksPerSecond : ℚ
  ignoredBlocks : List String
deriving DecidableEq, Repr

/-- The constructor state of `MiningModule`. -/
def initState : MState :=
  { isMining := false, miningQueue := [], blocksPerSecond := 1,
    ignoredBlocks := ["bedrock", "obsidian"] }

/-- `pause()` (mining.js lines 240–245): only flips `isMining` off. -/
def pauseOp (s : MState) : MState :=
  if s.isMining then { s with isMining := false } else s

/-- `resume()` (mining.js lines 250–255): only flips `isMining` on when the
queue is non-empty and mining is off. -/
def resumeOp (s : MState) : MState :=
  if 0 < s.miningQueue.length ∧ s.isMining = false then
    { s with isMining := true }
  else s

/-- `stop()` (mining.js lines 229–235): guarded by `isMining`; clears the
queue only when currently mining. -/
def stopOp (s : MState) : MState :=
  if s.isMining then { s with isMining := false, miningQueue := [] } else s

/-- `setMiningSpeed(speed)` (mining.js lines 261–268): rejects (returns with
no state change) when `speed < 0.1 || speed > 10`; the source's float literal
`0.1` is the rational `1/10`. -/
def setMiningSpeed (s : MState) (speed : ℚ) : MState :=
  if speed < 1/10 ∨ 10 < speed then s
  else { s with blocksPerSecond := speed }

def applyCmd (s : MState) : Cmd → MState
  | Cmd.pause => pauseOp s
  | Cmd.resume => resumeOp s
  | Cmd.stop => stopOp s

/-- A batch of commands delivered during one suspension of the loop. -/
def applyCmds (s : MState) (cs : List Cmd) : MState :=
  cs.foldl applyCmd s

theorem applyCmd_queue_le (s : MState) (c : Cmd) :
    (applyCmd s c).miningQueue.length ≤ s.miningQueue.length := by
  cases c <;> simp only [applyCmd, pauseOp, resumeOp, stopOp] <;> split <;> simp

theorem applyCmds_queue_le (cs : List Cmd) (s : MState) :
    (applyCmds s cs).miningQueue.length ≤ s.miningQueue.length := by
  induction cs generalizing s with
  | nil => simp [applyCmds]
  | cons c cs ih =>
    simp only [applyCmds, List.foldl_cons] at *
    exact le_trans (ih (applyCmd s c)) (applyCmd_queue_le s c)

/-- `filterMineableBlocks` (mining.js lines 58–70): keep positions whose block
resolves and is neither `air` nor in the ignore list. -/
def filterMineableBlocks (env : BotEnv) (ignoredBlocks : List String)
    (positions : List Pos) : List Pos :=
  positions.filter fun pos =>
    match env.blockNameAt pos with
    | none => false
    | some nm => !(nm == "air" || ignoredBlocks.contains nm)

/-- The `for (let i = 0; i < this.miningQueue.length; i++)` loop of
`mineRectangularArea` (mining.js lines 198–214). `sched i` is the batch of
external controller commands that ran during the awaits of iteration `i - 1`
and are therefore observed at the head of iteration `i`; the loop re-reads
the live `miningQueue` and `isMining` each iteration, breaks when `isMining`
is off, and otherwise mines `miningQueue[i]` (returned in the visit list). -/
def miningLoop (sched : Nat → List Cmd) (i : Nat) (s : MState) : MState × List Pos :=
  if h : i < (applyCmds s (sched i)).miningQueue.length then
    if (applyCmds s (sched i)).isMining then
      let rest := miningLoop sched (i + 1) (applyCmds s (sched i))
      (rest.1, (applyCmds s (sched i)).miningQueue.get ⟨i, h⟩ :: rest.2)
    else (applyCmds s (sched i), [])
  else (applyCmds s (sched i), [])
termination_by s.miningQueue.length - i
decreasing_by
  have := applyCmds_queue_le (sched i) s
  omega

/-- `mineRectangularArea` (mining.js lines 176–224): reject when already
mining; otherwise set `isMining`, decompose, filter, sort into the queue,
run the loop, and finally clear `isMining`. The returned list is the
sequence of queue cells the loop visited (called `mineBlock` on). -/
def mineRectangularArea (env : BotEnv) (sched : Nat → List Cmd)
    (s : MState) (startPos endPos : Pos) : MState × List Pos :=
  if s.isMining then (s, [])
  else
    let s1 := { s with isMining := true }
    let allBlocks := calculateMiningArea startPos endPos
    let mineableBlocks := filterMineableBlocks env s1.ignoredBlocks allBlocks
    let s2 := { s1 with miningQueue := sortBlocksByDistance env.botPos mineableBlocks }
    let r := miningLoop sched 0 s2
    ({ r.1 with isMining := false }, r.2)

theorem miningLoop_halt (sched : Nat → List Cmd) (i : Nat) (s : MState)
    (hm : (applyCmds s (sched i)).isMining = false) :
    miningLoop sched i s = (applyCmds s (sched i), []) := by
  rw [miningLoop.eq_def]
  split
  · rw [hm]
    simp
  · rfl

theorem miningLoop_step (sched : Nat → List Cmd) (i : Nat) (s : MState)
    (h : i < (applyCmds s (sched i)).miningQueue.length)
    (hm : (applyCmds s (sched i)).isMining = true) :
    miningLoop sched i s =
      ((miningLoop sched (i + 1) (applyCmds s (sched i))).1,
        (applyCmds s (sched i)).miningQueue.get ⟨i, h⟩ ::
          (miningLoop sched (i + 1) (applyCmds s (sched i))).2) := by
  rw [miningLoop.eq_def]
  rw [dif_pos h, hm]
  simp

/-- A world of plain stone everywhere, agent at the origin. -/
def exEnv : BotEnv :=
  { botPos := { x := 0, y := 0, z := 0 }, blockNameAt := fun _ => some "stone" }

/-- No external commands during the run. -/
def noCmds : Nat → List Cmd := fun _ => []

/-- `pause()` is called during the awaits of iteration 0, so it is observed
at the head of iteration 1. -/
def pauseAt1 : Nat → List Cmd := fun i => if i = 1 then [Cmd.pause] else []

/-- The C1 scenario run: excavate the box (0,0,0)–(0,0,1) (two stone cells)
with a pause delivered after the first cell is mined. -/
def c1Run : MState × List Pos :=
  mineRectangularArea exEnv pauseAt1 initState ⟨0, 0, 0⟩ ⟨0, 0, 1⟩

theorem c1_sort_eq :
    sortBlocksByDistance exEnv.botPos [⟨0, 0, 0⟩, ⟨0, 0, 1⟩] =
      [(⟨0, 0, 0⟩ : Pos), ⟨0, 0, 1⟩] := by
  apply List.mergeSort_of_sorted
  refine List.pairwise_cons.mpr ⟨?_, List.pairwise_singleton _ _⟩
  intro p hp
  rw [List.mem_singleton] at hp
  subst hp
  rw [decide_eq_true_eq]
  norm_num [distSq, exEnv]

/-- The controller state right after decomposition in the C1 scenario. -/
def c1s2 : MState :=
  { isMining := true, miningQueue := [⟨0, 0, 0⟩, ⟨0, 0, 1⟩],
    blocksPerSecond := 1, ignoredBlocks := ["bedrock", "obsidian"] }

theorem c1Run_eq :
    c1Run = ({ isMining := false, miningQueue := [⟨0, 0, 0⟩, ⟨0, 0, 1⟩],
               blocksPerSecond := 1, ignoredBlocks := ["bedrock", "obsidian"] },
             [⟨0, 0, 0⟩]) := by
  have hq : calculateMiningArea ⟨0, 0, 0⟩ ⟨0, 0, 1⟩ = [⟨0, 0, 0⟩, ⟨0, 0, 1⟩] := rfl
  have hf : filterMineableBlocks exEnv ["bedrock", "obsidian"]
      [⟨0, 0, 0⟩, ⟨0, 0, 1⟩] = [⟨0, 0, 0⟩, ⟨0, 0, 1⟩] := rfl
  have hmain : c1Run =
      ({ (miningLoop pauseAt1 0 c1s2).1 with isMining := false },
        (miningLoop pauseAt1 0 c1s2).2) := by
    simp only [c1Run, mineRectangularArea, initState, hq, hf, c1_sort_eq]
    rfl
  have h1 : miningLoop pauseAt1 1 (applyCmds c1s2 (pauseAt1 0)) =
      (applyCmds (applyCmds c1s2 (pauseAt1 0)) (pauseAt1 1), []) :=
    miningLoop_halt pauseAt1 1 _ (by decide)
  have h0 := miningLoop_step pauseAt1 0 c1s2 (by decide) (by decide)
  rw [hmain, h0, h1]
  rfl

/-- C1: the claim fails on the code. In the scenario run `c1Run` (queue
`[(0,0,0), (0,0,1)]`, `pause()` delivered after cell 0 is mined), the loop
breaks and `mineRectangularArea` returns, having visited only `(0,0,0)`;
`resume()` merely sets `isMining := true` on the final state — the remaining
cell `(0,0,1)` is not in the visit list, the cursor is lost (the queue still
holds the already-mined cell), and a fresh `mineRectangularArea` call after
`resume()` is rejected as busy, so no path processes the remaining cell. -/
theorem C1_resume_does_not_continue_loop :
    c1Run.2 = [⟨0, 0, 0⟩] ∧
    (Pos.mk 0 0 1) ∉ c1Run.2 ∧
    c1Run.1.isMining = false ∧
    (resumeOp c1Run.1).isMining = true ∧
    (resumeOp c1Run.1).miningQueue = [⟨0, 0, 0⟩, ⟨0, 0, 1⟩] ∧
    mineRectangularArea exEnv noCmds (resumeOp c1Run.1) ⟨0, 0, 0⟩ ⟨0, 0, 1⟩ =
      (resumeOp c1Run.1, []) := by
  rw [c1Run_eq]
  refine ⟨rfl, by simp, rfl, ?_, ?_, ?_⟩
  · rfl
  · rfl
  · rw [mineRectangularArea.eq_def]
    simp only [resumeOp]
    norm_num

/-- A paused controller: not mining, with a non-empty remaining queue. -/
def pausedEx : MState :=
  { isMining := false, miningQueue := [⟨0, 0, 0⟩],
    blocksPerSecond := 1, ignoredBlocks := ["bedrock", "obsidian"] }

/-- An actively mining controller. -/
def miningEx : MState :=
  { isMining := true, miningQueue := [⟨0, 0, 0⟩],
    blocksPerSecond := 1, ignoredBlocks := ["bedrock", "obsidian"] }

/-- C2 counterexample: from the Paused state (`isMining = false`, non-empty
queue) `stop()` is a no-op because of its `if (this.isMining)` guard, so the
remaining queue is NOT emptied — refuting "stop() from any state always
results in an empty remaining queue". -/
theorem C2_counterexample_stop_from_paused :
    (stopOp pausedEx).miningQueue = [⟨0, 0, 0⟩] ∧
    (stopOp pausedEx).miningQueue ≠ [] := by
  constructor
  · rfl
  · intro h
    simp [stopOp, pausedEx] at h

/-- C2 amended: `stop()` always leaves a non-Mining state and is idempotent,
but it empties the remaining queue only when called while Mining; called from
Paused the queue is left untouched. -/
theorem C2_stop_amended (s : MState) :
    (stopOp s).isMining = false ∧
    stopOp (stopOp s) = stopOp s ∧
    (s.isMining = true → (stopOp s).miningQueue = []) := by
  refine ⟨?_, ?_, ?_⟩
  · simp only [stopOp]
    cases h : s.isMining <;> simp [h]
  · simp only [stopOp]
    cases h : s.isMining <;> simp [h]
  · intro h
    simp [stopOp, h]

theorem C2_stop_amended_witness :
    (stopOp miningEx).isMining = false ∧
    stopOp (stopOp miningEx) = stopOp miningEx ∧
    (stopOp miningEx).miningQueue = [] :=
  ⟨(C2_stop_amended miningEx).1, (C2_stop_amended miningEx).2.1,
    (C2_stop_amended miningEx).2.2 rfl⟩

/-- C5 counterexample: the source's guard is `speed < 0.1 || speed > 10`, so
`setMiningSpeed(0.1)` is ACCEPTED and updates the throughput — refuting the
claim that every rate ≤ 0.1 is rejected with the prior value left unchanged. -/
theorem C5_counterexample_boundary_accepted :
    (setMiningSpeed initState (1/10)).blocksPerSecond = 1/10 ∧
    (setMiningSpeed initState (1/10)).blocksPerSecond ≠ initState.blocksPerSecond := by
  have h : setMiningSpeed initState (1/10) =
      { initState with blocksPerSecond := 1/10 } := by
    simp only [setMiningSpeed]
    norm_num
  rw [h]
  refine ⟨rfl, ?_⟩
  simp only [initState]
  norm_num

/-- C5 amended: `setMiningSpeed` rejects exactly the rates outside the CLOSED
interval [0.1, 10] (leaving the whole state unchanged) and updates the
configured throughput for every rate in [0.1, 10], the rest of the state
untouched. -/
theorem C5_setMiningSpeed_amended (s : MState) (speed : ℚ) :
    ((speed < 1/10 ∨ 10 < speed) → setMiningSpeed s speed = s) ∧
    (1/10 ≤ speed → speed ≤ 10 →
      (setMiningSpeed s speed).blocksPerSecond = speed ∧
      (setMiningSpeed s speed).isMining = s.isMining ∧
      (setMiningSpeed s speed).miningQueue = s.miningQueue) := by
  constructor
  · intro h
    simp only [setMiningSpeed]
    rw [if_pos h]
  · intro h1 h2
    simp only [setMiningSpeed]
    rw [if_neg (by push_neg; exact ⟨h1, h2⟩)]
    exact ⟨rfl, rfl, rfl⟩

theorem C5_setMiningSpeed_amended_witness :
    setMiningSpeed initState 20 = initState ∧
    (setMiningSpeed initState 5).blocksPerSecond = 5 :=
  ⟨(C5_setMiningSpeed_amended initState 20).1 (by norm_num),
    ((C5_setMiningSpeed_amended initState 5).2 (by norm_num) (by norm_num)).1⟩

/-- C7: invoking `mineRectangularArea` while already mining returns
immediately with the state untouched and no cell visited — the busy
rejection causes no state change and no new decomposition or processing. -/
theorem C7_busy_call_rejected_no_state_change (env : BotEnv)
    (sched : Nat → List Cmd) (s : MState) (startPos endPos : Pos)
    (h : s.isMining = true) :
    mineRectangularArea env sched s startPos endPos = (s, []) := by
  rw [mineRectangularArea.eq_def, if_pos h]

theorem C7_busy_call_rejected_witness :
    mineRectangularArea exEnv noCmds miningEx ⟨0, 0, 0⟩ ⟨2, 2, 2⟩ = (miningEx, []) :=
  C7_busy_call_rejected_no_state_change exEnv noCmds miningEx ⟨0, 0, 0⟩ ⟨2, 2, 2⟩ rfl

/-- A block object as the safety module inspects it: only `block.name`
is consulted. -/
structure Blk where
  name : String
deriving DecidableEq, Repr

/-- An entity from `bot.entities`: its `type`, `name` and position. -/
structure Entity where
  etype : String
  name : String
  pos : Vec3q
deriving DecidableEq, Repr

/-- The world state the safety module reads: `bot.world.getBlock`,
`bot.entities` and `bot.player.entity.position`. -/
structure SWorld where
  getBlock : Pos → Option Blk
  entities : List Entity
  playerPos : Vec3q

/-- `this.dangerousBlocks` of the safety module's constructor. -/
def dangerousBlocks : List String := ["lava", "flowing_lava"]

/-- `this.waterBlocks` of the safety module's constructor. -/
def waterBlocks : List String := ["water", "flowing_water"]

/-- `isLavaPresent(position)`: false on a null position, false when the world
returns no block, otherwise membership of the block name in the dangerous
set. -/
def isLavaPresent (w : SWorld) (position : Option Pos) : Bool :=
  match position with
  | none => false
  | some p =>
    match w.getBlock p with
    | none => false
    | some block => dangerousBlocks.contains block.name

/-- `isWaterPresent(position)`: same shape over the water set. -/
def isWaterPresent (w : SWorld) (position : Option Pos) : Bool :=
  match position with
  | none => false
  | some p =>
    match w.getBlock p with
    | none => false
    | some block => waterBlocks.contains block.name

/-- The fixed hostile-type membership list in `detectNearbyMobs`. -/
def hostileTypes : List String :=
  ["zombie", "skeleton", "creeper", "spider", "cave_spider", "enderman",
   "witch", "slime", "magma_cube", "ghast", "blazeghast", "wither_skeleton",
   "stray", "husk", "drowned", "phantom", "pillager", "ravager"]

/-- One entry of the hostile/peaceful lists: name, position and the distance
to the player (stored squared; the source stores the Euclidean distance and
only ever compares it to nonnegative thresholds). -/
structure MobInfo where
  name : String
  pos : Vec3q
  distSq : ℚ
deriving DecidableEq, Repr

structure MobReport where
  hostile : List MobInfo
  peaceful : List MobInfo
  threatLevel : String
deriving DecidableEq, Repr

/-- Squared Euclidean distance between two continuous positions
(`position.distanceTo`, squared). -/
def distSqV (a b : Vec3q) : ℚ :=
  (a.x - b.x) ^ 2 + (a.y - b.y) ^ 2 + (a.z - b.z) ^ 2

/-- `detectNearbyMobs()`: partition the entities of type `mob` by membership
of their name in `hostileTypes`, pushing in entity-iteration order;
`threatLevel` is `high` iff any hostile was found. -/
def detectNearbyMobs (w : SWorld) : MobReport :=
  let step : List MobInfo × List MobInfo → Entity → List MobInfo × List MobInfo :=
    fun acc entity =>
      if entity.etype ≠ "mob" then acc
      else if hostileTypes.contains entity.name then
        (acc.1 ++ [⟨entity.name, entity.pos, distSqV w.playerPos entity.pos⟩], acc.2)
      else
        (acc.1, acc.2 ++ [⟨entity.name, entity.pos, distSqV w.playerPos entity.pos⟩])
  let hp := w.entities.foldl step ([], [])
  { hostile := hp.1, peaceful := hp.2,
    threatLevel := if 0 < hp.1.length then "high" else "low" }

/-- The hazard report built by `scanAreaForHazards`. -/
structure Hazards where
  lava : List Pos
  water : List Pos
  mobs : List MobInfo
  isSafe : Bool
deriving DecidableEq, Repr

/-- `position.offset(dx, dy, dz)`. -/
def Pos.offset (p : Pos) (dx dy dz : Int) : Pos :=
  { x := p.x + dx, y := p.y + dy, z := p.z + dz }

/-- The coordinates visited by the triple `-radius..radius` loop of
`scanAreaForHazards`, in visit order. -/
def cubePositions (c : Pos) (radius : Nat) : List Pos :=
  (rangeInt (-(radius : Int)) radius).flatMap fun x =>
    (rangeInt (-(radius : Int)) radius).flatMap fun y =>
      (rangeInt (-(radius : Int)) radius).map fun z =>
        c.offset x y z

/-- The body of the block-scanning loop of `scanAreaForHazards`: skip when no
block resolves, record lava (and mark unsafe), else record water. -/
def scanStep (w : SWorld) (hz : Hazards) (checkPos : Pos) : Hazards :=
  match w.getBlock checkPos with
  | none => hz
  | some _ =>
    if isLavaPresent w (some checkPos) then
      { hz with lava := hz.lava ++ [checkPos], isSafe := false }
    else if isWaterPresent w (some checkPos) then
      { hz with water := hz.water ++ [checkPos] }
    else hz

/-- `scanAreaForHazards(position, radius)` (safety module, lines 138–176):
empty safe report on a null position; otherwise scan the cube, then append
the hostile-mob data and mark unsafe when hostiles exist. -/
def scanAreaForHazards (w : SWorld) (position : Option Pos) (radius : Nat) : Hazards :=
  match position with
  | none => { lava := [], water := [], mobs := [], isSafe := true }
  | some c =>
    let afterBlocks := (cubePositions c radius).foldl (scanStep w)
      { lava := [], water := [], mobs := [], isSafe := true }
    let mobData := detectNearbyMobs w
    let hz := { afterBlocks with mobs := mobData.hostile }
    if 0 < mobData.hostile.length then { hz with isSafe := false } else hz

theorem mem_cubePositions (c : Pos) (radius : Nat) (p : Pos) :
    p ∈ cubePositions c radius ↔
      (c.x - radius ≤ p.x ∧ p.x ≤ c.x + radius ∧
       c.y - radius ≤ p.y ∧ p.y ≤ c.y + radius ∧
       c.z - radius ≤ p.z ∧ p.z ≤ c.z + radius) := by
  simp only [cubePositions, List.mem_flatMap, List.mem_map, mem_rangeInt]
  constructor
  · rintro ⟨x, hx, y, hy, z, hz, rfl⟩
    simp only [Pos.offset]
    omega
  · rintro ⟨h1, h2, h3, h4, h5, h6⟩
    refine ⟨p.x - c.x, by omega, p.y - c.y, by omega, p.z - c.z, by omega, ?_⟩
    have e1 : c.x + (p.x - c.x) = p.x := by omega
    have e2 : c.y + (p.y - c.y) = p.y := by omega
    have e3 : c.z + (p.z - c.z) = p.z := by omega
    simp only [Pos.offset, e1, e2, e3]

theorem scan_foldl_eq (w : SWorld) (ps : List Pos) (hz : Hazards) :
    ps.foldl (scanStep w) hz =
      { hz with
        lava := hz.lava ++ ps.filter (fun p => isLavaPresent w (some p)),
        water := hz.water ++ ps.filter (fun p =>
          !(isLavaPresent w (some p)) && isWaterPresent w (some p)),
        isSafe := hz.isSafe &&
          (ps.filter (fun p => isLavaPresent w (some p))).isEmpty } := by
  induction ps generalizing hz with
  | nil => simp
  | cons p ps ih =>
    simp only [List.foldl_cons, List.filter_cons]
    rw [ih]
    cases hgb : w.getBlock p with
    | none =>
      have hl : isLavaPresent w (some p) = false := by simp [isLavaPresent, hgb]
      have hw : isWaterPresent w (some p) = false := by simp [isWaterPresent, hgb]
      simp [scanStep, hgb, hl, hw]
    | some b =>
      cases hl : isLavaPresent w (some p) with
      | true => simp [scanStep, hgb, hl]
      | false =>
        cases hw : isWaterPresent w (some p) with
        | true => simp [scanStep, hgb, hl, hw]
        | false => simp [scanStep, hgb, hl, hw]

/-- The C8 scenario world: lava at (1,0,0), stone everywhere else, and no
entities at all. -/
def c8World : SWorld :=
  { getBlock := fun p => if p = ⟨1, 0, 0⟩ then some ⟨"lava"⟩ else some ⟨"stone"⟩,
    entities := [],
    playerPos := ⟨0, 0, 0⟩ }

/-- C8: `scanAreaForHazards` visits exactly the closed cube of side
`2·radius+1` around the center (membership characterization of the visited
list, whose lava entries are exactly the visited cells classified as lava);
and in the concrete radius-1 scenario with exactly one lava cell at offset
(1,0,0) and no hostile entities, the report is unsafe and its lava set is
exactly that one coordinate. -/
theorem C8_scanAreaForHazards_cube_scenario (w : SWorld) (c : Pos) (radius : Nat) :
    (∀ p : Pos, p ∈ cubePositions c radius ↔
      (c.x - radius ≤ p.x ∧ p.x ≤ c.x + radius ∧
       c.y - radius ≤ p.y ∧ p.y ≤ c.y + radius ∧
       c.z - radius ≤ p.z ∧ p.z ≤ c.z + radius)) ∧
    (scanAreaForHazards w (some c) radius).lava =
      (cubePositions c radius).filter (fun p => isLavaPresent w (some p)) ∧
    ((scanAreaForHazards c8World (some ⟨0, 0, 0⟩) 1).isSafe = false ∧
      (scanAreaForHazards c8World (some ⟨0, 0, 0⟩) 1).lava = [⟨1, 0, 0⟩]) := by
  refine ⟨mem_cubePositions c radius, ?_, by decide, by decide⟩
  show (scanAreaForHazards w (some c) radius).lava = _
  simp only [scanAreaForHazards, scan_foldl_eq]
  split <;> simp

/-- A world with no resolvable blocks anywhere. -/
def emptyWorld : SWorld :=
  { getBlock := fun _ => none, entities := [], playerPos := ⟨0, 0, 0⟩ }

/-- C9: for a null position, and for a position where the world returns no
block, both liquid classifiers return false — missing data is treated as
non-hazardous. -/
theorem C9_unresolvable_classified_false (w : SWorld) (p : Pos)
    (h : w.getBlock p = none) :
    isLavaPresent w none = false ∧ isWaterPresent w none = false ∧
    isLavaPresent w (some p) = false ∧ isWaterPresent w (some p) = false := by
  refine ⟨rfl, rfl, ?_, ?_⟩
  · simp [isLavaPresent, h]
  · simp [isWaterPresent, h]

theorem C9_unresolvable_classified_false_witness :
    isLavaPresent emptyWorld none = false ∧
    isWaterPresent emptyWorld none = false ∧
    isLavaPresent emptyWorld (some ⟨0, 0, 0⟩) = false ∧
    isWaterPresent emptyWorld (some ⟨0, 0, 0⟩) = false :=
  C9_unresolvable_classified_false emptyWorld ⟨0, 0, 0⟩ rfl

/-- C10: when the scanned region has no lava-classified coordinate and no
hostile entity is detected, the report stays safe while every
water-classified coordinate of the region is listed in its water set. -/
theorem C10_water_does_not_make_unsafe (w : SWorld) (c : Pos) (radius : Nat)
    (hlava : (cubePositions c radius).filter (fun p => isLavaPresent w (some p)) = [])
    (hmobs : (detectNearbyMobs w).hostile = []) :
    (scanAreaForHazards w (some c) radius).isSafe = true ∧
    (scanAreaForHazards w (some c) radius).water =
      (cubePositions c radius).filter (fun p => isWaterPresent w (some p)) := by
  have hnolava : ∀ p ∈ cubePositions c radius, isLavaPresent w (some p) = false := by
    intro p hp
    by_contra hne
    have : p ∈ (cubePositions c radius).filter (fun q => isLavaPresent w (some q)) := by
      rw [List.mem_filter]
      exact ⟨hp, by revert hne; cases isLavaPresent w (some p) <;> simp⟩
    rw [hlava] at this
    exact absurd this (List.not_mem_nil p)
  have hwfilter : (cubePositions c radius).filter (fun p =>
      !(isLavaPresent w (some p)) && isWaterPresent w (some p)) =
      (cubePositions c radius).filter (fun p => isWaterPresent w (some p)) := by
    apply List.filter_congr
    intro p hp
    rw [hnolava p hp]
    simp
  constructor
  · simp only [scanAreaForHazards, scan_foldl_eq, hmobs]
    simp [hlava]
  · simp only [scanAreaForHazards, scan_foldl_eq, hmobs]
    simp [hwfilter]

/-- The C10 scenario world: water at (1,0,0), stone everywhere else, no
entities. -/
def c10World : SWorld :=
  { getBlock := fun p => if p = ⟨1, 0, 0⟩ then some ⟨"water"⟩ else some ⟨"stone"⟩,
    entities := [],
    playerPos := ⟨0, 0, 0⟩ }

theorem C10_water_does_not_make_unsafe_witness :
    (scanAreaForHazards c10World (some ⟨0, 0, 0⟩) 1).isSafe = true ∧
    (scanAreaForHazards c10World (some ⟨0, 0, 0⟩) 1).water =
      (cubePositions ⟨0, 0, 0⟩ 1).filter (fun p => isWaterPresent c10World (some p)) :=
  C10_water_does_not_make_unsafe c10World ⟨0, 0, 0⟩ 1 (by decide) (by decide)

/-- The movement-intent control states the navigation module toggles through
`bot.setControlState`. -/
structure NavFlags where
  forward : Bool
  back : Bool
  left : Bool
  right : Bool
  jump : Bool
deriving DecidableEq, Repr

def allOff : NavFlags :=
  { forward := false, back := false, left := false, right := false, jump := false }

/-- The result of one `_navigatePath` call: the returned boolean, the
movement intents and `pathfindingActive` flag as left behind, and the
wall-clock time (ms) at return. -/
structure NavResult where
  reached : Bool
  flags : NavFlags
  active : Bool
  time : Nat
deriving DecidableEq, Repr

/-- The live world/agent inputs the navigation loop reads, abstracted as
functions of the wall-clock time: the agent position
(`bot.entity.position`), and the outcomes of the block-reading helpers
`_isObstacleAhead`, `_calculateAvoidance`, `_isDangerousBlock type` and the
escape direction `_avoidDanger` picks (`none` when every neighbor is
blocked/hazardous, in which case no movement burst happens). -/
structure NavEnv where
  posAt : Nat → Vec3q
  obstacleAhead : Nat → Bool
  avoidanceDir : Nat → Option (Int × Int)
  lavaNear : Nat → Bool
  lavaEscape : Nat → Option (Int × Int)
  waterNear : Nat → Bool
  waterEscape : Nat → Option (Int × Int)

/-- `_moveInDirection({dx, dz})`: set the directional intents given by the
signs of `dx`/`dz`, sleep 100 ms, then clear all four directional intents
(`jump` is not touched). Returns the final flags and the 100 ms elapsed. -/
def moveInDirection (d : Int × Int) (fl : NavFlags) : NavFlags × Nat :=
  let fl1 : NavFlags :=
    { fl with
      right := if 0 < d.1 then true else fl.right,
      left := if d.1 < 0 then true else fl.left,
      forward := if 0 < d.2 then true else fl.forward,
      back := if d.2 < 0 then true else fl.back }
  ({ fl1 with forward := false, back := false, left := false, right := false }, 100)

/-- A guarded movement burst: `_calculateAvoidance`/`_avoidDanger` produced a
direction (move, 100 ms) or none (no action, 0 ms). -/
def avoidPhase (esc : Option (Int × Int)) (fl : NavFlags) : NavFlags × Nat :=
  match esc with
  | some d => moveInDirection d fl
  | none => (fl, 0)

/-- `_moveTowards(target)`: hold the forward intent; when the target is more
than 0.5 above, pulse jump (set, sleep 50 ms, clear); the step-down branch
has no state effect; `bot.look` changes no modeled state. -/
def moveTowards (pos target : Vec3q) (fl : NavFlags) : NavFlags × Nat :=
  let fl1 : NavFlags := { fl with forward := true }
  if pos.y + 1/2 < target.y then ({ fl1 with jump := false }, 50)
  else (fl1, 0)

/-- A conditional avoidance step: when the corresponding hazard/obstacle
check fires, run the movement burst `_avoidDanger`/`_calculateAvoidance`
produced; otherwise no action and no elapsed time. -/
def phase (cond : Bool) (esc : Option (Int × Int)) (fl : NavFlags) : NavFlags × Nat :=
  if cond then avoidPhase esc fl else (fl, 0)

/-- One iteration body of `_navigatePath`'s while loop after the reached
check (obstacle avoidance, lava avoidance, water avoidance, steering),
returning the flags at the end of the iteration and the milliseconds the
iteration's awaits consumed (excluding the trailing 50 ms sleep). -/
def navIter (env : NavEnv) (target : Vec3q) (checkObstacles avoidLava avoidWater : Bool)
    (now : Nat) (fl : NavFlags) : NavFlags × Nat :=
  let a1 := phase (checkObstacles && env.obstacleAhead now) (env.avoidanceDir now) fl
  let n1 := now + a1.2
  let a2 := phase (avoidLava && env.lavaNear n1) (env.lavaEscape n1) a1.1
  let n2 := n1 + a2.2
  let a3 := phase (avoidWater && env.waterNear n2) (env.waterEscape n2) a2.1
  let n3 := n2 + a3.2
  let a4 := moveTowards (env.posAt n3) target a3.1
  (a4.1, a1.2 + a2.2 + a3.2 + a4.2)

/-- `_navigatePath(target, options)` (navigation module, lines 47–84):
`while (Date.now() - startTime < timeout)`, re-reading the position each
iteration; on `distance < tolerance` return true after clearing
`pathfindingActive`; otherwise run the iteration body and sleep 50 ms.
On exhausting the timeout, return false — without touching the movement
intents or the `pathfindingActive` flag. The source compares the Euclidean
distance to `tolerance`, embedded as squared distance versus `tolerance²`. -/
def navigatePath (env : NavEnv) (target : Vec3q) (timeout : Nat)
    (checkObstacles avoidLava avoidWater : Bool) (tolerance : ℚ)
    (startTime : Nat) (active : Bool) (now : Nat) (fl : NavFlags) : NavResult :=
  if h : now - startTime < timeout then
    if distSqV (env.posAt now) target < tolerance ^ 2 then
      { reached := true, flags := fl, active := false, time := now }
    else
      navigatePath env target timeout checkObstacles avoidLava avoidWater tolerance
        startTime active
        (now + (navIter env target checkObstacles avoidLava avoidWater now fl).2 + 50)
        (navIter env target checkObstacles avoidLava avoidWater now fl).1
  else
    { reached := false, flags := fl, active := active, time := now }
termination_by startTime + timeout - now
decreasing_by omega

/-- `goTo(target, options)`: push a goal record (diagnostics only) and run
`_navigatePath` from the current time. -/
def goTo (env : NavEnv) (target : Vec3q) (timeout : Nat)
    (checkObstacles avoidLava avoidWater : Bool) (tolerance : ℚ)
    (startTime : Nat) (active : Bool) (fl : NavFlags) : NavResult :=
  navigatePath env target timeout checkObstacles avoidLava avoidWater tolerance
    startTime active startTime fl

theorem avoidPhase_time_le (esc : Option (Int × Int)) (fl : NavFlags) :
    (avoidPhase esc fl).2 ≤ 100 := by
  cases esc <;> simp [avoidPhase, moveInDirection]

theorem moveTowards_time_le (pos target : Vec3q) (fl : NavFlags) :
    (moveTowards pos target fl).2 ≤ 50 := by
  simp only [moveTowards]
  split <;> simp

theorem phase_time_le (cond : Bool) (esc : Option (Int × Int)) (fl : NavFlags) :
    (phase cond esc fl).2 ≤ 100 := by
  simp only [phase]
  split
  · exact avoidPhase_time_le esc fl
  · simp

theorem navIter_time_le (env : NavEnv) (target : Vec3q)
    (checkObstacles avoidLava avoidWater : Bool) (now : Nat) (fl : NavFlags) :
    (navIter env target checkObstacles avoidLava avoidWater now fl).2 ≤ 350 := by
  simp only [navIter]
  exact le_trans
    (add_le_add (add_le_add (add_le_add (phase_time_le _ _ _) (phase_time_le _ _ _))
      (phase_time_le _ _ _)) (moveTowards_time_le _ _ _))
    (by norm_num)

theorem navigatePath_never_reached (env : NavEnv) (target : Vec3q)
    (timeout : Nat) (checkObstacles avoidLava avoidWater : Bool) (tolerance : ℚ)
    (startTime : Nat) (active : Bool)
    (hnever : ∀ t : Nat, tolerance ^ 2 ≤ distSqV (env.posAt t) target) :
    ∀ (m now : Nat) (fl : NavFlags),
      startTime + timeout ≤ now + m → now < startTime + timeout + 400 →
      ((navigatePath env target timeout checkObstacles avoidLava avoidWater tolerance
          startTime active now fl).reached = false ∧
       (navigatePath env target timeout checkObstacles avoidLava avoidWater tolerance
          startTime active now fl).active = active ∧
       (navigatePath env target timeout checkObstacles avoidLava avoidWater tolerance
          startTime active now fl).time < startTime + timeout + 400) := by
  intro m
  induction m with
  | zero =>
    intro now fl h1 h2
    rw [navigatePath.eq_def, dif_neg (by omega)]
    exact ⟨rfl, rfl, h2⟩
  | succ m ih =>
    intro now fl h1 h2
    by_cases hg : now - startTime < timeout
    · rw [navigatePath.eq_def, dif_pos hg, if_neg (not_lt.mpr (hnever now))]
      have hb := navIter_time_le env target checkObstacles avoidLava avoidWater now fl
      exact ih _ _ (by omega) (by omega)
    · rw [navigatePath.eq_def, dif_neg hg]
      exact ⟨rfl, rfl, h2⟩

/-- C6 amended: when the target is never within tolerance, `goTo` terminates
with `reached = false` once the elapsed time reaches the timeout, overrunning
it by less than 400 ms (one iteration's worth of awaits) — but on this
timeout path it does NOT clear the movement intents and does NOT write the
`pathfindingActive` flag (the flag comes back exactly as it went in). -/
theorem C6_goTo_timeout_amended (env : NavEnv) (target : Vec3q)
    (timeout : Nat) (checkObstacles avoidLava avoidWater : Bool) (tolerance : ℚ)
    (startTime : Nat) (active : Bool) (fl : NavFlags)
    (hnever : ∀ t : Nat, tolerance ^ 2 ≤ distSqV (env.posAt t) target) :
    (goTo env target timeout checkObstacles avoidLava avoidWater tolerance
        startTime active fl).reached = false ∧
    (goTo env target timeout checkObstacles avoidLava avoidWater tolerance
        startTime active fl).active = active ∧
    (goTo env target timeout checkObstacles avoidLava avoidWater tolerance
        startTime active fl).time < startTime + timeout + 400 :=
  navigatePath_never_reached env target timeout checkObstacles avoidLava avoidWater
    tolerance startTime active hnever timeout startTime fl (by omega) (by omega)

/-- A hazard-free environment whose agent never moves: position fixed at the
origin, no obstacles, no dangerous blocks. -/
def cEnv : NavEnv :=
  { posAt := fun _ => ⟨0, 0, 0⟩,
    obstacleAhead := fun _ => false,
    avoidanceDir := fun _ => none,
    lavaNear := fun _ => false,
    lavaEscape := fun _ => none,
    waterNear := fun _ => false,
    waterEscape := fun _ => none }

/-- The far-away target of the counterexample run. -/
def cTarget : Vec3q := ⟨10, 0, 0⟩

theorem cEnv_never : ∀ t : Nat, ((1 : ℚ)/2) ^ 2 ≤ distSqV (cEnv.posAt t) cTarget := by
  intro t
  norm_num [cEnv, cTarget, distSqV]

theorem C6_goTo_timeout_amended_witness :
    (goTo cEnv cTarget 60 true true true (1/2) 0 false allOff).reached = false ∧
    (goTo cEnv cTarget 60 true true true (1/2) 0 false allOff).active = false ∧
    (goTo cEnv cTarget 60 true true true (1/2) 0 false allOff).time < 0 + 60 + 400 :=
  C6_goTo_timeout_amended cEnv cTarget 60 true true true (1/2) 0 false allOff cEnv_never

theorem cEnv_iter (now : Nat) (fl : NavFlags) :
    navIter cEnv cTarget true true true now fl = ({ fl with forward := true }, 0) := by
  simp only [navIter, phase, cEnv, cTarget, moveTowards, Bool.and_false, if_neg]
  norm_num

/-- C6 counterexample: in the concrete unreachable-target run (agent pinned
at the origin, target 10 away, tolerance 1/2, timeout 60 ms) the call returns
`reached = false` with the `forward` movement intent still SET on exit — the
timeout path does not clear movement intents, refuting the claim as stated. -/
theorem C6_counterexample_intents_not_cleared :
    (goTo cEnv cTarget 60 true true true (1/2) 0 false allOff).reached = false ∧
    (goTo cEnv cTarget 60 true true true (1/2) 0 false allOff).flags.forward = true := by
  have hd : ∀ t : Nat, ¬(distSqV (cEnv.posAt t) cTarget < ((1 : ℚ)/2) ^ 2) :=
    fun t => not_lt.mpr (cEnv_never t)
  have h2 : navigatePath cEnv cTarget 60 true true true (1/2) 0 false 100
      { allOff with forward := true } =
      { reached := false, flags := { allOff with forward := true },
        active := false, time := 100 } := by
    rw [navigatePath.eq_def, dif_neg (by omega)]
  have h1 : navigatePath cEnv cTarget 60 true true true (1/2) 0 false 50
      { allOff with forward := true } =
      { reached := false, flags := { allOff with forward := true },
        active := false, time := 100 } := by
    rw [navigatePath.eq_def, dif_pos (by omega), if_neg (hd 50), cEnv_iter]
    exact h2
  have h0 : goTo cEnv cTarget 60 true true true (1/2) 0 false allOff =
      { reached := false, flags := { allOff with forward := true },
        active := false, time := 100 } := by
    rw [goTo, navigatePath.eq_def, dif_pos (by omega), if_neg (hd 0), cEnv_iter]
    exact h1
  rw [h0]
  exact ⟨rfl, rfl⟩

end AutoMiner
